import Mathlib

/-!
# FAF rating service — shallow embedding and verification

This file embeds the rating-request pipeline of the FAF rating service
(`service/rating_service/rating_service.py`, `service/rating_service/typedefs.py`,
`service/db/models.py`, `service/config.py`) in Lean 4 and proves properties of
the embedded operations.

Modelling conventions:
* Python `dict`s are association lists with insert-or-overwrite semantics
  (`dictInsert` / `dictGet`), preserving insertion order as Python dicts do.
* Database tables are lists of row structures; SQL `INSERT` appends,
  `UPDATE ... WHERE` maps over the list updating matching rows, `fetchone`
  is `List.find?`.
* Rating means and deviations are carried as integers: the pipeline only
  copies these values (it never does float arithmetic on them), so the exact
  numeric type does not affect any property proved here.
* `await`-based effects are threaded as explicit state (`DbState`); exceptions
  become `Option PipelineError` / `Except` values.  A raised exception keeps
  the side effects performed before it, exactly as in Python.
* The worker task (`_handle_rating_queue`) is modelled as a recursion over a
  snapshot of the queue contents, emitting a trace of `WorkerEvent`s; the
  single asyncio task executes its loop body sequentially, which the trace
  theorems make precise.
-/

namespace FafRating

/-- `GameOutcome` enum from `typedefs.py`. -/
inductive GameOutcome
  | VICTORY
  | DEFEAT
  | DRAW
  | MUTUAL_DRAW
  | UNKNOWN
  | CONFLICTING
deriving DecidableEq, Repr

/-- `getattr(GameOutcome, name)` restricted to the enum's member names:
returns the member for a recognized outcome literal, `none` (AttributeError)
otherwise. -/
def GameOutcome.fromName : String → Option GameOutcome
  | "VICTORY" => some .VICTORY
  | "DEFEAT" => some .DEFEAT
  | "DRAW" => some .DRAW
  | "MUTUAL_DRAW" => some .MUTUAL_DRAW
  | "UNKNOWN" => some .UNKNOWN
  | "CONFLICTING" => some .CONFLICTING
  | _ => none

/-- `RatingType` enum from `typedefs.py` (member names `GLOBAL`, `LADDER_1V1`,
values `"global"`, `"ladder_1v1"`). -/
inductive RatingTypeEnum
  | GLOBAL
  | LADDER_1V1
deriving DecidableEq, Repr

/-- `getattr(RatingType, name)` restricted to the enum's member names. -/
def RatingTypeEnum.fromName : String → Option RatingTypeEnum
  | "GLOBAL" => some .GLOBAL
  | "LADDER_1V1" => some .LADDER_1V1
  | _ => none

/-- The value a rating-type key can take at runtime.  The code is loosely
typed here: `_rating_type_ids` is keyed by the `technical_name` strings read
from the `leaderboard` table, while `from_game_info_dict` stores a
`RatingType` enum member in the summary; a Python `dict.get` with an enum
member key never matches a string key.  The two constructors keep those two
kinds of runtime values distinct, as Python equality does. -/
inductive RatingTypeKey
  | name (s : String)
  | enumMember (e : RatingTypeEnum)
deriving DecidableEq, Repr

/-- `trueskill.Rating`: a (mean, deviation) pair.  Only copied, never
computed on, inside the embedded code. -/
structure TrueskillRating where
  mu : Int
  sigma : Int
deriving DecidableEq, Repr

/-- `TeamRatingSummary` from `typedefs.py`: an outcome plus the set of player
ids (modelled as the list produced by iterating the Python set). -/
structure TeamRatingSummary where
  outcome : GameOutcome
  player_ids : List Int
deriving DecidableEq, Repr

/-- `GameRatingSummaryWithCallback` from `typedefs.py`.  The completion
handle is modelled by its presence (`Option Unit`); its invocations are
recorded in the worker's event trace. -/
structure GameRatingSummaryWithCallback where
  game_id : Int
  rating_type : RatingTypeKey
  teams : List TeamRatingSummary
  callback : Option Unit
deriving DecidableEq, Repr

/-- `TeamRatingData` from `typedefs.py`: outcome plus `{player_id: Rating}`. -/
structure TeamRatingData where
  outcome : GameOutcome
  ratings : List (Int × TrueskillRating)
deriving DecidableEq, Repr

/-- `GameRatingData = List[TeamRatingData]`. -/
abbrev GameRatingData := List TeamRatingData

/-! ## Python dict operations -/

/-- `d[k]` / `d.get(k)` on an association list. -/
def dictGet [BEq κ] : List (κ × α) → κ → Option α
  | [], _ => none
  | (k₁, v) :: rest, k => if k₁ == k then some v else dictGet rest k

/-- `d[k] = v` on an association list: overwrite in place if the key exists
(Python dicts keep the original position), append otherwise. -/
def dictInsert [BEq κ] : List (κ × α) → κ → α → List (κ × α)
  | [], k, v => [(k, v)]
  | (k₁, v₁) :: rest, k, v =>
    if k₁ == k then (k, v) :: rest else (k₁, v₁) :: dictInsert rest k v

/-! ## Database model (`service/db/models.py`) -/

/-- A row of the `leaderboard` table. -/
structure LeaderboardRow where
  id : Int
  technical_name : String
deriving DecidableEq, Repr

/-- A row of the `leaderboard_rating` table.  `leaderboard_id` is a nullable
column: `_create_default_rating` inserts whatever `dict.get` returned. -/
structure LeaderboardRatingRow where
  login_id : Int
  mean : Int
  deviation : Int
  total_games : Int
  won_games : Int
  leaderboard_id : Option Int
deriving DecidableEq, Repr

/-- A row of the `leaderboard_rating_journal` table. -/
structure JournalRow where
  game_player_stats_id : Option Int
  leaderboard_id : Int
  rating_mean_before : Int
  rating_mean_after : Int
  rating_deviation_before : Int
  rating_deviation_after : Int
deriving DecidableEq, Repr

/-- The columns of `game_player_stats` that the service touches. -/
structure GamePlayerStatsRow where
  id : Int
  gameId : Int
  playerId : Int
deriving DecidableEq, Repr

/-- The mutable database state seen by the service. -/
structure DbState where
  leaderboard_rating : List LeaderboardRatingRow
  leaderboard_rating_journal : List JournalRow
  game_player_stats : List GamePlayerStatsRow
deriving DecidableEq, Repr

/-! ## Configuration (`service/config.py`) -/

def START_RATING_MEAN : Int := 1500

def START_RATING_DEV : Int := 500

/-! ## Errors

One constructor per distinct runtime failure the pipeline can raise:
`serviceNotReady` for the explicit `ServiceNotReadyError` raises,
`unknownRatingType` for the explicit `ValueError("Unknown rating type ...")`
raise in `_get_player_rating`, `gameRatingError` for `GameRatingError` from
the rater, `runtimeError` for unnamed Python failures (`KeyError`,
`AttributeError` on lookups), and `publishFailure` for an exception escaping
the message-queue `publish` call. -/

inductive PipelineError
  | serviceNotReady
  | unknownRatingType
  | gameRatingError
  | runtimeError
  | publishFailure
deriving DecidableEq, Repr

/-! ## Raw messages and parsing (`typedefs.py`,
`GameRatingSummaryWithCallback.from_game_info_dict`) -/

/-- A raw team entry of an inbound `game_info` dict; `none` fields model
missing dict keys (indexing them raises `KeyError`). -/
structure RawTeam where
  outcome : Option String
  player_ids : Option (List Int)
deriving DecidableEq, Repr

/-- A raw inbound `game_info` dict.  `ack` models the optional `_ack`
completion handle injected by the message-queue layer (`.get`, no
`KeyError`). -/
structure GameInfo where
  game_id : Option Int
  rating_type : Option String
  teams : Option (List RawTeam)
  ack : Option Unit
deriving DecidableEq, Repr

/-- One team of `from_game_info_dict`'s list comprehension:
`TeamRatingSummary(getattr(GameOutcome, summary["outcome"]),
set(summary["player_ids"]))`.  Any failure (missing key, unrecognized
outcome literal) is a parse error. -/
def parseRawTeam (t : RawTeam) : Except Unit TeamRatingSummary :=
  match t.outcome with
  | none => .error ()
  | some oname =>
    match GameOutcome.fromName oname with
    | none => .error ()
    | some o =>
      match t.player_ids with
      | none => .error ()
      | some pids => .ok ⟨o, pids.dedup⟩

/-- The list comprehension of `from_game_info_dict` over the team entries,
aborting on the first failing team. -/
def parseTeams : List RawTeam → Except Unit (List TeamRatingSummary)
  | [] => .ok []
  | t :: rest =>
    match parseRawTeam t with
    | .error e => .error e
    | .ok s =>
      match parseTeams rest with
      | .error e => .error e
      | .ok ss => .ok (s :: ss)

/-- `GameRatingSummaryWithCallback.from_game_info_dict`: requires the
`teams` key with exactly two entries, then builds the summary, failing on a
missing `game_id`/`rating_type` key, an unrecognized rating-type literal, or
a failing team parse.  The player-id list is passed through `set(...)`
(modelled by `dedup`) with no emptiness check. -/
def from_game_info_dict (gi : GameInfo) : Except Unit GameRatingSummaryWithCallback :=
  match gi.teams with
  | none => .error ()
  | some ts =>
    if ts.length ≠ 2 then .error ()
    else
      match gi.game_id with
      | none => .error ()
      | some gid =>
        match gi.rating_type with
        | none => .error ()
        | some rtname =>
          match RatingTypeEnum.fromName rtname with
          | none => .error ()
          | some rt =>
            match parseTeams ts with
            | .error e => .error e
            | .ok teams => .ok ⟨gid, .enumMember rt, teams, gi.ack⟩

/-- Result of `RatingService.enqueue`: the queue afterwards, whether the
`_ack` completion handle was invoked during the call, and whether
`ServiceNotReadyError` was raised. -/
structure EnqueueResult where
  queue : List GameRatingSummaryWithCallback
  ackInvoked : Bool
  raisedNotReady : Bool
deriving DecidableEq, Repr

/-- `RatingService.enqueue`: raise `ServiceNotReadyError` unless accepting
input; on a parse failure invoke the `_ack` handle (when present) and drop
the message; otherwise append the summary to the queue. -/
def enqueue (accept_input : Bool) (queue : List GameRatingSummaryWithCallback)
    (gi : GameInfo) : EnqueueResult :=
  if !accept_input then ⟨queue, false, true⟩
  else
    match from_game_info_dict gi with
    | .error _ => ⟨queue, gi.ack.isSome, false⟩
    | .ok summary => ⟨queue ++ [summary], false, false⟩

/-! ## Service environment and rating lookup -/

/-- `self._rating_type_ids.get(key)`: the directory is keyed by the
`technical_name` strings loaded from the `leaderboard` table, so a lookup
with a `RatingType` enum member never matches. -/
def directoryGet (dir : List (String × Int)) : RatingTypeKey → Option Int
  | .name s => dictGet dir s
  | .enumMember _ => none

/-- The parts of the service's surroundings a pipeline run depends on:
the current `_rating_type_ids` snapshot (`none` before `update_data`), the
external trueskill computation (out of scope, an opaque deterministic
function of the rating data), and whether each `publish` call to the
message bus succeeds. -/
structure Env where
  ratingTypeIds : Option (List (String × Int))
  update : GameRatingData → List (Int × TrueskillRating)
  publishOk : Int → Bool

/-- The `leaderboard_rating` row `_create_default_rating` inserts: the
configured start mean/deviation, zeroed game counters, and the `dict.get`
result for the leaderboard id. -/
def defaultRatingRow (player_id : Int) (rtid? : Option Int) : LeaderboardRatingRow :=
  { login_id := player_id
    mean := START_RATING_MEAN
    deviation := START_RATING_DEV
    total_games := 0
    won_games := 0
    leaderboard_id := rtid? }

/-- `RatingService._create_default_rating`: inserts a `leaderboard_rating`
row with the configured start mean/deviation, zero game counters and the
`dict.get` result for the leaderboard id, and returns the default rating.
(`self._rating_type_ids` is not `None` on every path reaching this; `none`
models the `AttributeError` that `.get` on `None` would raise.) -/
def createDefaultRating (env : Env) (player_id : Int) (rating_type : RatingTypeKey)
    (db : DbState) : DbState × Except PipelineError TrueskillRating :=
  match env.ratingTypeIds with
  | none => (db, .error .runtimeError)
  | some dir =>
    ({ db with leaderboard_rating := db.leaderboard_rating ++
        [defaultRatingRow player_id (directoryGet dir rating_type)] },
      .ok ⟨START_RATING_MEAN, START_RATING_DEV⟩)

/-- The `WHERE login_id == player_id AND leaderboard_id == rating_type_id`
filter on `leaderboard_rating`. -/
def ratingRowMatches (player_id rtid : Int) (r : LeaderboardRatingRow) : Bool :=
  r.login_id == player_id && r.leaderboard_id == some rtid

/-- `RatingService._get_player_rating`: `ServiceNotReadyError` before the
directory is loaded; `ValueError` for a rating-type key absent from the
snapshot; otherwise fetch the first matching rating row, creating a default
row when none exists. -/
def getPlayerRating (env : Env) (player_id : Int) (rating_type : RatingTypeKey)
    (db : DbState) : DbState × Except PipelineError TrueskillRating :=
  match env.ratingTypeIds with
  | none => (db, .error .serviceNotReady)
  | some dir =>
    match directoryGet dir rating_type with
    | none => (db, .error .unknownRatingType)
    | some rtid =>
      match db.leaderboard_rating.find? (ratingRowMatches player_id rtid) with
      | some row => (db, .ok ⟨row.mean, row.deviation⟩)
      | none => createDefaultRating env player_id rating_type db

/-! ## Rating data collection (`RatingService._get_rating_data`) -/

/-- The first phase of `_get_rating_data`: the nested
`for team in summary.teams: for player_id in team.player_ids` loop filling
the `ratings` dict, threading the database (lazy default-row creation) and
aborting on the first exception (side effects so far are kept). -/
def fetchRatings (env : Env) (rating_type : RatingTypeKey) :
    List Int → List (Int × TrueskillRating) → DbState →
    DbState × Except PipelineError (List (Int × TrueskillRating))
  | [], acc, db => (db, .ok acc)
  | pid :: rest, acc, db =>
    match getPlayerRating env pid rating_type db with
    | (db₁, .error e) => (db₁, .error e)
    | (db₁, .ok r) => fetchRatings env rating_type rest (dictInsert acc pid r) db₁

/-- The second phase of `_get_rating_data`: the dict comprehension
`{player_id: ratings[player_id] for player_id in team.player_ids}` for one
team (`KeyError` if a player is somehow absent, which the first phase makes
impossible). -/
def teamRatingsFrom (ratings : List (Int × TrueskillRating)) :
    List Int → Except PipelineError (List (Int × TrueskillRating))
  | [] => .ok []
  | pid :: rest =>
    match dictGet ratings pid with
    | none => .error .runtimeError
    | some r =>
      match teamRatingsFrom ratings rest with
      | .error e => .error e
      | .ok rs => .ok ((pid, r) :: rs)

/-- The list comprehension of `_get_rating_data` building one
`TeamRatingData` per team from the fetched `ratings` dict. -/
def buildRatingData (ratings : List (Int × TrueskillRating)) :
    List TeamRatingSummary → Except PipelineError GameRatingData
  | [] => .ok []
  | t :: rest =>
    match teamRatingsFrom ratings t.player_ids with
    | .error e => .error e
    | .ok rs =>
      match buildRatingData ratings rest with
      | .error e => .error e
      | .ok ds => .ok (⟨t.outcome, rs⟩ :: ds)

/-- `RatingService._get_rating_data`: fetch every player's current rating
(creating defaults lazily), then group the ratings per team. -/
def getRatingData (env : Env) (s : GameRatingSummaryWithCallback) (db : DbState) :
    DbState × Except PipelineError GameRatingData :=
  match fetchRatings env s.rating_type (s.teams.flatMap (·.player_ids)) [] db with
  | (db₁, .error e) => (db₁, .error e)
  | (db₁, .ok ratings) =>
    match buildRatingData ratings s.teams with
    | .error e => (db₁, .error e)
    | .ok data => (db₁, .ok data)

/-! ## Rating computation (`game_rater.py`, absent from src) -/

/-- Modelled from the spec: whether a two-team outcome pair is within the
two-team victor/loser convention (§4.5: the computation "fails with
`RatingComputationError` when the outcome pair is inconsistent (e.g. two
victories, two defeats, or any outcome outside the two-team victor/loser
convention)"). -/
def consistentOutcomes : GameOutcome → GameOutcome → Bool
  | .VICTORY, .DEFEAT => true
  | .DEFEAT, .VICTORY => true
  | _, _ => false

/-- Modelled from the spec: `GameRater.compute_rating` from the repository's
`game_rater.py`, which is not under `src/`.  Per spec §4.5 it is a pure
function of the two `(outcome, {playerId: priorRating})` pairs, opaque and
deterministic on success (here: the `Env.update` parameter, the external
trueskill algorithm being out of scope), and fails with
`RatingComputationError`/`GameRatingError` when the outcome pair is outside
the two-team victor/loser convention. -/
def compute_rating (env : Env) (data : GameRatingData) :
    Except PipelineError (List (Int × TrueskillRating)) :=
  match data with
  | [t₁, t₂] =>
    if consistentOutcomes t₁.outcome t₂.outcome then .ok (env.update data)
    else .error .gameRatingError
  | _ => .error .gameRatingError

/-! ## Worker events -/

/-- Observable actions of the worker loop and the pipeline: the start and
end of a dequeued request's processing, the two logging branches of the
`try`/`except` in `_handle_rating_queue`, completion-handle invocation, and
a successful rating-update publish. -/
inductive WorkerEvent
  | startRating (game_id : Int)
  | finishRating (game_id : Int)
  | logWarning (game_id : Int)
  | logError (game_id : Int)
  | invokeCallback (game_id : Int)
  | publishRatingUpdate (player_id : Int)
deriving DecidableEq, Repr

def WorkerEvent.isStart : WorkerEvent → Bool
  | .startRating _ => true
  | _ => false

def WorkerEvent.isFinish : WorkerEvent → Bool
  | .finishRating _ => true
  | _ => false

def WorkerEvent.isPublish : WorkerEvent → Bool
  | .publishRatingUpdate _ => true
  | _ => false

/-- The game id of a `startRating` event. -/
def WorkerEvent.started? : WorkerEvent → Option Int
  | .startRating g => some g
  | _ => none

/-- The game id of an `invokeCallback` event. -/
def WorkerEvent.callbackFor? : WorkerEvent → Option Int
  | .invokeCallback g => some g
  | _ => none

/-! ## Persistence (`RatingService._persist_rating_changes`) -/

/-- The `leaderboard_rating_journal` insert of the per-player loop body:
the journal row records mean/deviation before and after and a
`game_player_stats_id` obtained by the scalar subquery on
`(playerId, gameId)`. -/
def insertJournal (game_id rtid : Int) (oldR newR : TrueskillRating) (pid : Int)
    (db : DbState) : DbState :=
  let gpsRef :=
    (db.game_player_stats.find? (fun g => g.playerId == pid && g.gameId == game_id)).map (·.id)
  { db with
    leaderboard_rating_journal := db.leaderboard_rating_journal ++
      [{ game_player_stats_id := gpsRef
         leaderboard_id := rtid
         rating_mean_before := oldR.mu
         rating_mean_after := newR.mu
         rating_deviation_before := oldR.sigma
         rating_deviation_after := newR.sigma }] }

/-- The `leaderboard_rating` update of the per-player loop body: every row
matching `(login_id, leaderboard_id)` gets the new mean/deviation,
`total_games + 1`, and `won_games` incremented by the victory increment. -/
def updateRatingRow (rtid : Int) (newR : TrueskillRating) (pid : Int)
    (outcome : GameOutcome) (db : DbState) : DbState :=
  { db with
    leaderboard_rating := db.leaderboard_rating.map (fun r =>
      if ratingRowMatches pid rtid r then
        { r with
          mean := newR.mu
          deviation := newR.sigma
          total_games := r.total_games + 1
          won_games := r.won_games + (if outcome = .VICTORY then 1 else 0) }
      else r) }

/-- The two database writes of the per-player loop body of
`_persist_rating_changes`, in program order: journal insert, then rating-row
update. -/
def applyUpdate (game_id rtid : Int) (oldR newR : TrueskillRating) (pid : Int)
    (outcome : GameOutcome) (db : DbState) : DbState :=
  updateRatingRow rtid newR pid outcome (insertJournal game_id rtid oldR newR pid db)

/-- `RatingService._persist_rating_changes`: for each `(player, newRating)`
of `new_ratings` in iteration order — look up the old rating
(`old_ratings[player_id]`) and the rating-type id
(`self._rating_type_ids[rating_type]`), insert the journal entry, look up
the outcome (`outcomes[player_id]`, evaluated between the two writes),
update the rating row, then `await` the publish; an exception anywhere
(including a publish failure) aborts the loop keeping the effects already
performed. -/
def persistRatingChanges (env : Env) (game_id : Int) (rating_type : RatingTypeKey)
    (oldRatings : List (Int × TrueskillRating)) (outcomes : List (Int × GameOutcome)) :
    List (Int × TrueskillRating) → DbState →
    DbState × List WorkerEvent × Option PipelineError
  | [], db => (db, [], none)
  | (pid, newR) :: rest, db =>
    match dictGet oldRatings pid with
    | none => (db, [], some .runtimeError)
    | some oldR =>
      match env.ratingTypeIds with
      | none => (db, [], some .runtimeError)
      | some dir =>
        match directoryGet dir rating_type with
        | none => (db, [], some .runtimeError)
        | some rtid =>
          let db₁ := insertJournal game_id rtid oldR newR pid db
          match dictGet outcomes pid with
          | none => (db₁, [], some .runtimeError)
          | some outcome =>
            let db₂ := updateRatingRow rtid newR pid outcome db₁
            if env.publishOk pid then
              let (db₃, evs, err) :=
                persistRatingChanges env game_id rating_type oldRatings outcomes rest db₂
              (db₃, .publishRatingUpdate pid :: evs, err)
            else (db₂, [], some .publishFailure)

/-! ## Per-request pipeline (`RatingService._rate`) and worker loop -/

/-- `RatingService._rate`: fetch the rating data, run the computation, build
the outcome and old-rating dicts, and persist.  Returns the database, the
events emitted, and the exception (if any) escaping to the worker loop. -/
def rate (env : Env) (s : GameRatingSummaryWithCallback) (db : DbState) :
    DbState × List WorkerEvent × Option PipelineError :=
  match getRatingData env s db with
  | (db₁, .error e) => (db₁, [], some e)
  | (db₁, .ok data) =>
    match compute_rating env data with
    | .error e => (db₁, [], some e)
    | .ok newRatings =>
      let outcomeMap :=
        (s.teams.flatMap (fun t => t.player_ids.map (fun pid => (pid, t.outcome)))).foldl
          (fun m p => dictInsert m p.1 p.2) []
      let oldRatings :=
        (data.flatMap (·.ratings)).foldl (fun m p => dictInsert m p.1 p.2) []
      persistRatingChanges env s.game_id s.rating_type oldRatings outcomeMap newRatings db₁

/-- The logging branch of the worker's `try`/`except`: nothing on success,
`logger.warning` for a `GameRatingError`, `logger.exception` (error level)
for any other exception. -/
def logEventsFor (game_id : Int) : Option PipelineError → List WorkerEvent
  | none => []
  | some e =>
    if e = .gameRatingError then [.logWarning game_id] else [.logError game_id]

/-- The completion-handle invocation after a request is processed (only
when the request carries a handle). -/
def callbackEventsFor (s : GameRatingSummaryWithCallback) : List WorkerEvent :=
  if s.callback.isSome then [.invokeCallback s.game_id] else []

/-- `RatingService._handle_rating_queue` over a snapshot of the queue
contents: dequeue a summary, run `_rate` under the `try`/`except`
(`GameRatingError` → warning log, any other exception → error log), mark
the task done, invoke the completion handle when present, and continue with
the next request.  `finishRating` marks the end of the iteration. -/
def handleRatingQueue (env : Env) (db : DbState) :
    List GameRatingSummaryWithCallback → DbState × List WorkerEvent
  | [] => (db, [])
  | s :: rest =>
    let (db₁, evs, err) := rate env s db
    let (db₂, evs₂) := handleRatingQueue env db₁ rest
    (db₂, .startRating s.game_id ::
      (evs ++ logEventsFor s.game_id err ++ callbackEventsFor s ++
        [.finishRating s.game_id]) ++ evs₂)

/-! ## Service lifecycle (`RatingService.initialize`, `update_data`) -/

/-- The service-lifecycle fields of `RatingService.__init__`. -/
structure ServiceState where
  accept_input : Bool
  task : Option Nat
  rating_type_ids : Option (List (String × Int))
deriving DecidableEq, Repr

/-- `RatingService.update_data`: build the `technical_name → id` dict from
the `leaderboard` table rows. -/
def loadRatingTypeIds (rows : List LeaderboardRow) : List (String × Int) :=
  rows.foldl (fun m row => dictInsert m row.technical_name row.id) []

/-- `RatingService.initialize` (renamed: `initialize` is a Lean keyword):
a no-op (logged error) when a worker task already exists; otherwise load the
directory, start accepting input and create the single worker task. -/
def initService (rows : List LeaderboardRow) (s : ServiceState) : ServiceState :=
  if s.task.isSome then s
  else
    { accept_input := true
      task := some 0
      rating_type_ids := some (loadRatingTypeIds rows) }

/-! ## Trace observations -/

/-- Number of request-processing starts in a trace. -/
def countStarts (t : List WorkerEvent) : Nat := t.countP WorkerEvent.isStart

/-- Number of request-processing completions in a trace. -/
def countFinishes (t : List WorkerEvent) : Nat := t.countP WorkerEvent.isFinish

/-- The game ids whose processing was started, in trace order. -/
def startedGames (t : List WorkerEvent) : List Int :=
  t.filterMap WorkerEvent.started?

/-- The game ids whose completion handle was invoked, in trace order. -/
def callbackGames (t : List WorkerEvent) : List Int :=
  t.filterMap WorkerEvent.callbackFor?

/-- Whether a `leaderboard_rating` row carries exactly the lazily-created
default contents: start mean/deviation and zeroed game counters. -/
def LeaderboardRatingRow.isFreshDefault (r : LeaderboardRatingRow) : Bool :=
  r.mean == START_RATING_MEAN && r.deviation == START_RATING_DEV &&
    r.total_games == 0 && r.won_games == 0

/-- Modelled from the spec (refinement side of the parse claim): the
acceptance condition §4.4 states for `RequestParser`, minus the non-empty
player-id requirement — a game id, a rating-type name naming a known
variant, and exactly two team entries each with a recognized outcome
literal and a player-id list. -/
def specParseAccepts (gi : GameInfo) : Bool :=
  gi.game_id.isSome &&
  (match gi.rating_type with
   | some n => (RatingTypeEnum.fromName n).isSome
   | none => false) &&
  (match gi.teams with
   | some ts =>
     ts.length == 2 &&
     ts.all (fun t =>
       (match t.outcome with
        | some o => (GameOutcome.fromName o).isSome
        | none => false) && t.player_ids.isSome)
   | none => false)

/-! ## Concrete instances used by witnesses and counterexamples -/

/-- A directory snapshot matching the repository's test database
(`global ↦ 1`, `ladder_1v1 ↦ 2`), a concrete stand-in for the external
trueskill function, and a bus whose publishes succeed. -/
def envOk : Env :=
  { ratingTypeIds := some [("global", 1), ("ladder_1v1", 2)]
    update := fun _ => [(1, ⟨1600, 400⟩), (2, ⟨1400, 400⟩)]
    publishOk := fun _ => true }

/-- `envOk` with the publish for player 1 failing. -/
def envPublishFails : Env := { envOk with publishOk := fun pid => pid != 1 }

/-- A database with no rating rows and participation rows for players 1 and
2 in game 7. -/
def dbBase : DbState :=
  { leaderboard_rating := []
    leaderboard_rating_journal := []
    game_player_stats := [⟨10, 7, 1⟩, ⟨11, 7, 2⟩] }

/-- A well-formed two-team summary for game 7 (player 1 wins, player 2
loses) carrying a completion handle. -/
def summaryOk : GameRatingSummaryWithCallback :=
  { game_id := 7
    rating_type := .name "global"
    teams := [⟨.VICTORY, [1]⟩, ⟨.DEFEAT, [2]⟩]
    callback := some () }

/-- `summaryOk` with a rating-type name absent from the directory. -/
def summaryUnknownType : GameRatingSummaryWithCallback :=
  { summaryOk with rating_type := .name "tmm_4v4" }

/-- `summaryOk` with an inconsistent outcome pair (two victories). -/
def summaryTwoVictories : GameRatingSummaryWithCallback :=
  { summaryOk with teams := [⟨.VICTORY, [1]⟩, ⟨.VICTORY, [2]⟩] }

/-- A raw message that is well formed except that its first team has an
empty player-id list. -/
def gameInfoEmptyPids : GameInfo :=
  { game_id := some 111
    rating_type := some "GLOBAL"
    teams := some [⟨some "VICTORY", some []⟩, ⟨some "DEFEAT", some [444]⟩]
    ack := some () }

/-- A raw message with three team entries (otherwise well formed). -/
def gameInfoThreeTeams : GameInfo :=
  { game_id := some 111
    rating_type := some "GLOBAL"
    teams := some [⟨some "VICTORY", some [1]⟩, ⟨some "DEFEAT", some [2]⟩,
      ⟨some "DEFEAT", some [3]⟩]
    ack := some () }

/-! # Theorems -/

/-! ## General list and dict lemmas -/

theorem map_ite_of_all_false {α : Type} (p : α → Bool) (f : α → α) (l : List α)
    (h : ∀ x ∈ l, p x = false) :
    l.map (fun x => if p x then f x else x) = l := by
  induction l with
  | nil => rfl
  | cons a t ih =>
    simp only [List.map_cons, h a (List.mem_cons_self a t),
      ih (fun x hx => h x (List.mem_cons_of_mem _ hx)), Bool.false_eq_true, if_false]

theorem dictGet_insert {κ α : Type} [BEq κ] [LawfulBEq κ]
    (m : List (κ × α)) (k k₁ : κ) (v : α) :
    dictGet (dictInsert m k v) k₁ = if k == k₁ then some v else dictGet m k₁ := by
  induction m with
  | nil => simp [dictInsert, dictGet]
  | cons a rest ih =>
    by_cases h : a.1 == k
    · have ha : a.1 = k := eq_of_beq h
      simp only [dictInsert, h, if_true, dictGet]
      by_cases h₁ : k == k₁
      · simp [h₁]
      · simp [h₁, dictGet, ha]
    · simp only [dictInsert, h, Bool.false_eq_true, if_false, dictGet]
      by_cases h₁ : a.1 == k₁
      · have hk : (k == k₁) = false := by
          by_contra hcon
          have ht : k = k₁ := eq_of_beq (by simpa using hcon)
          have hak : a.1 = k := (eq_of_beq h₁).trans ht.symm
          simp [hak] at h
        simp [h₁, hk]
      · simp [h₁, ih]

/-! ## C10 — default rating rows -/

/-- **C10**: every lazily created default rating row is initialized with
`total_games = 0` and `won_games = 0`, in addition to the configured start
mean 1500 and deviation 500: `_create_default_rating` appends exactly the
row `defaultRatingRow`, whose game counters are zero. -/
theorem claim10_default_row_zero_counters (env : Env) (p : Int) (rt : RatingTypeKey)
    (db : DbState) (dir : List (String × Int)) (hdir : env.ratingTypeIds = some dir) :
    createDefaultRating env p rt db =
      ({ db with leaderboard_rating :=
          db.leaderboard_rating ++ [defaultRatingRow p (directoryGet dir rt)] },
        .ok ⟨START_RATING_MEAN, START_RATING_DEV⟩) ∧
    (defaultRatingRow p (directoryGet dir rt)).total_games = 0 ∧
    (defaultRatingRow p (directoryGet dir rt)).won_games = 0 ∧
    (defaultRatingRow p (directoryGet dir rt)).mean = 1500 ∧
    (defaultRatingRow p (directoryGet dir rt)).deviation = 500 := by
  refine ⟨?_, rfl, rfl, rfl, rfl⟩
  simp [createDefaultRating, hdir]

/-- Witness for C10 at a concrete environment and database. -/
theorem claim10_witness :
    createDefaultRating envOk 5 (.name "global") dbBase =
      ({ dbBase with leaderboard_rating := [defaultRatingRow 5 (some 1)] },
        .ok ⟨START_RATING_MEAN, START_RATING_DEV⟩) ∧
    (defaultRatingRow 5 (some 1)).total_games = 0 ∧
    (defaultRatingRow 5 (some 1)).won_games = 0 ∧
    (defaultRatingRow 5 (some 1)).mean = 1500 ∧
    (defaultRatingRow 5 (some 1)).deviation = 500 := by
  have h := claim10_default_row_zero_counters envOk 5 (.name "global") dbBase
    [("global", 1), ("ladder_1v1", 2)] rfl
  simpa [dbBase, directoryGet, dictGet] using h

/-! ## C6 — lazy creation is once-only -/

/-- **C6**: for a `(player, ratingType)` pair with no existing rating row,
the first `_get_player_rating` lookup creates exactly one row — the default
row with mean 1500 and deviation 500 — and returns that rating; a second
lookup on the resulting database returns the same rating and leaves the
database unchanged (no second creation). -/
theorem claim6_first_lookup_creates_once (env : Env) (dir : List (String × Int))
    (rtid p : Int) (rt : RatingTypeKey) (db : DbState)
    (hdir : env.ratingTypeIds = some dir)
    (hrt : directoryGet dir rt = some rtid)
    (hnone : db.leaderboard_rating.find? (ratingRowMatches p rtid) = none) :
    getPlayerRating env p rt db =
      ({ db with leaderboard_rating :=
          db.leaderboard_rating ++ [defaultRatingRow p (some rtid)] },
        .ok ⟨1500, 500⟩) ∧
    getPlayerRating env p rt
        ({ db with leaderboard_rating :=
            db.leaderboard_rating ++ [defaultRatingRow p (some rtid)] }) =
      ({ db with leaderboard_rating :=
          db.leaderboard_rating ++ [defaultRatingRow p (some rtid)] },
        .ok ⟨1500, 500⟩) := by
  constructor
  · simp [getPlayerRating, hdir, hrt, hnone, createDefaultRating, START_RATING_MEAN,
      START_RATING_DEV]
  · simp [getPlayerRating, hdir, hrt, List.find?_append, hnone, ratingRowMatches,
      defaultRatingRow, START_RATING_MEAN, START_RATING_DEV]

/-- Witness for C6: player 9 has no `global` rating row in `dbBase`; the
first lookup creates the default row, the second returns it unchanged. -/
theorem claim6_witness :
    getPlayerRating envOk 9 (.name "global") dbBase =
      ({ dbBase with leaderboard_rating := [defaultRatingRow 9 (some 1)] },
        .ok ⟨1500, 500⟩) ∧
    getPlayerRating envOk 9 (.name "global")
        ({ dbBase with leaderboard_rating := [defaultRatingRow 9 (some 1)] }) =
      ({ dbBase with leaderboard_rating := [defaultRatingRow 9 (some 1)] },
        .ok ⟨1500, 500⟩) := by
  have h := claim6_first_lookup_creates_once envOk [("global", 1), ("ladder_1v1", 2)]
    1 9 (.name "global") dbBase rfl (by decide) (by decide)
  simpa [dbBase] using h

/-! ## C7 — per-player persistence -/

/-- **C7**: the per-player loop body of `_persist_rating_changes`
(journal insert followed by rating-row update, `applyUpdate`) run for a
player whose game has a participation row `gps` and whose rating table
contains exactly one row `r` for `(player, ratingTypeId)` — appends exactly
one journal entry recording mean and deviation before and after, linked to
`gps`, and rewrites `r` to the new mean and deviation with `total_games`
incremented by 1 and `won_games` incremented by 1 iff the outcome is
`VICTORY`; every other row and table is untouched. -/
theorem claim7_per_player_update
    (gid rtid : Int) (oldR newR : TrueskillRating) (pid : Int) (outcome : GameOutcome)
    (db : DbState) (gps : GamePlayerStatsRow)
    (l₁ l₂ : List LeaderboardRatingRow) (r : LeaderboardRatingRow)
    (hlr : db.leaderboard_rating = l₁ ++ r :: l₂)
    (hr : ratingRowMatches pid rtid r = true)
    (h₁ : ∀ x ∈ l₁, ratingRowMatches pid rtid x = false)
    (h₂ : ∀ x ∈ l₂, ratingRowMatches pid rtid x = false)
    (hgps : db.game_player_stats.find?
      (fun g => g.playerId == pid && g.gameId == gid) = some gps) :
    applyUpdate gid rtid oldR newR pid outcome db =
      { db with
        leaderboard_rating := l₁ ++
          { r with
            mean := newR.mu
            deviation := newR.sigma
            total_games := r.total_games + 1
            won_games := r.won_games + (if outcome = .VICTORY then 1 else 0) } :: l₂
        leaderboard_rating_journal := db.leaderboard_rating_journal ++
          [{ game_player_stats_id := some gps.id
             leaderboard_id := rtid
             rating_mean_before := oldR.mu
             rating_mean_after := newR.mu
             rating_deviation_before := oldR.sigma
             rating_deviation_after := newR.sigma }] } := by
  have e₁ := map_ite_of_all_false (ratingRowMatches pid rtid)
    (fun x => { x with
      mean := newR.mu
      deviation := newR.sigma
      total_games := x.total_games + 1
      won_games := x.won_games + (if outcome = .VICTORY then 1 else 0) }) l₁ h₁
  have e₂ := map_ite_of_all_false (ratingRowMatches pid rtid)
    (fun x => { x with
      mean := newR.mu
      deviation := newR.sigma
      total_games := x.total_games + 1
      won_games := x.won_games + (if outcome = .VICTORY then 1 else 0) }) l₂ h₂
  simp [applyUpdate, insertJournal, updateRatingRow, hgps, hlr, hr, e₁, e₂]

/-- Witness for C7: player 1 in game 7 (participation row id 10) with a
single matching `global` rating row. -/
theorem claim7_witness :
    applyUpdate 7 1 ⟨1500, 500⟩ ⟨1600, 400⟩ 1 .VICTORY
        { dbBase with leaderboard_rating := [defaultRatingRow 1 (some 1)] } =
      { dbBase with
        leaderboard_rating := [⟨1, 1600, 400, 1, 1, some 1⟩]
        leaderboard_rating_journal := [⟨some 10, 1, 1500, 1600, 500, 400⟩] } := by
  have h := claim7_per_player_update 7 1 ⟨1500, 500⟩ ⟨1600, 400⟩ 1 .VICTORY
    { dbBase with leaderboard_rating := [defaultRatingRow 1 (some 1)] }
    ⟨10, 7, 1⟩ [] [] (defaultRatingRow 1 (some 1)) rfl (by decide)
    (by intro x hx; cases hx) (by intro x hx; cases hx) (by decide)
  simpa [dbBase, defaultRatingRow, START_RATING_MEAN, START_RATING_DEV] using h

/-! ## C4 — request parsing -/

@[simp] theorem isOk_error {ε α : Type} (e : ε) :
    (Except.error e : Except ε α).isOk = false := rfl

@[simp] theorem isOk_ok {ε α : Type} (a : α) :
    (Except.ok a : Except ε α).isOk = true := rfl

theorem parseRawTeam_isOk (t : RawTeam) :
    (parseRawTeam t).isOk =
      ((match t.outcome with
        | some o => (GameOutcome.fromName o).isSome
        | none => false) && t.player_ids.isSome) := by
  cases ho : t.outcome with
  | none => simp [parseRawTeam, ho]
  | some o =>
    cases hn : GameOutcome.fromName o with
    | none => simp [parseRawTeam, ho, hn]
    | some g =>
      cases hp : t.player_ids with
      | none => simp [parseRawTeam, ho, hn, hp]
      | some pids => simp [parseRawTeam, ho, hn, hp]

theorem parseTeams_isOk (ts : List RawTeam) :
    (parseTeams ts).isOk = ts.all (fun t => (parseRawTeam t).isOk) := by
  induction ts with
  | nil => rfl
  | cons t rest ih =>
    rw [List.all_cons, ← ih]
    simp only [parseTeams]
    cases ht : parseRawTeam t with
    | error e => rfl
    | ok s =>
      cases hr : parseTeams rest with
      | error e => rfl
      | ok ss => rfl

/-- **C4 counterexample**: a message whose first team has an *empty*
player-id set but which is otherwise well formed is parsed successfully by
`from_game_info_dict` — the code has no non-emptiness check — whereas the
claim requires a parse error for it. -/
theorem claim4_counterexample :
    from_game_info_dict gameInfoEmptyPids =
      .ok ⟨111, .enumMember .GLOBAL, [⟨.VICTORY, []⟩, ⟨.DEFEAT, [444]⟩], some ()⟩ ∧
    gameInfoEmptyPids.teams.map (fun ts => ts.map (·.player_ids)) =
      some [some [], some [444]] := ⟨rfl, rfl⟩

/-- **C4 amended**: parsing a raw message succeeds exactly when a game id
is present, a rating-type name naming a known variant is present, and there
are exactly two team entries each with a recognized outcome literal and a
(possibly empty) player-id list — there is no non-emptiness requirement on
the player-id set; and on any parse failure the completion handle is
invoked (when attached) and the request is not enqueued. -/
theorem claim4_parse_characterization (gi : GameInfo)
    (q : List GameRatingSummaryWithCallback) :
    ((from_game_info_dict gi).isOk = specParseAccepts gi) ∧
    ((from_game_info_dict gi).isOk = false →
      enqueue true q gi = ⟨q, gi.ack.isSome, false⟩) := by
  constructor
  · unfold from_game_info_dict specParseAccepts
    cases hts : gi.teams with
    | none => simp
    | some ts =>
      by_cases hlen : ts.length = 2
      · cases hg : gi.game_id with
        | none => simp [hlen]
        | some gid =>
          cases hrt : gi.rating_type with
          | none => simp [hlen]
          | some rtname =>
            cases hv : RatingTypeEnum.fromName rtname with
            | none => simp [hlen, hv]
            | some rt =>
              have h1 := parseTeams_isOk ts
              simp only [parseRawTeam_isOk] at h1
              cases hteams : parseTeams ts with
              | error e =>
                rw [hteams] at h1
                simp only [isOk_error] at h1
                simp [hlen, hv, hteams, ← h1]
              | ok teams =>
                rw [hteams] at h1
                simp only [isOk_ok] at h1
                simp [hlen, hv, hteams, ← h1]
      · simp [hlen]
  · intro hfail
    unfold enqueue
    cases hp : from_game_info_dict gi with
    | error e => simp
    | ok s => rw [hp] at hfail; simp at hfail

/-- Witness for C4 (amended) at a message with three team entries: parsing
fails, the spec-side acceptance condition is false, and enqueue invokes the
handle leaving the queue untouched. -/
theorem claim4_witness :
    ((from_game_info_dict gameInfoThreeTeams).isOk = specParseAccepts gameInfoThreeTeams) ∧
    enqueue true [] gameInfoThreeTeams = ⟨[], true, false⟩ := by
  have h := claim4_parse_characterization gameInfoThreeTeams []
  exact ⟨h.1, by simpa [gameInfoThreeTeams] using h.2 (by rfl)⟩

/-! ## C5 — unknown rating type -/

/-- **C5 counterexample**: the claim says an unknown rating-type name is
dropped "logged at warning level", but the `ValueError` raised by
`_get_player_rating` is not a `GameRatingError`, so it is caught by the
worker's generic `except Exception` branch and logged with
`logger.exception` (error level): for a concrete request whose rating-type
name is absent from the directory snapshot, the worker trace contains an
error-level log event and no warning-level one. -/
theorem claim5_counterexample :
    WorkerEvent.logWarning 7 ∉ (handleRatingQueue envOk dbBase [summaryUnknownType]).2 ∧
    WorkerEvent.logError 7 ∈ (handleRatingQueue envOk dbBase [summaryUnknownType]).2 := by
  decide

/-- **C5 amended**: for a rating-type name absent from the current
directory snapshot, fetching any player's rating fails with the
`ValueError("Unknown rating type ...")`, the database is untouched, and the
worker treats this as a per-request drop logged at **error** level (the
generic exception handler — not the warning-level `GameRatingError`
branch), still invoking the completion handle and continuing with the rest
of the queue. -/
theorem claim5_unknown_type_error_drop (env : Env) (dir : List (String × Int))
    (s : GameRatingSummaryWithCallback) (db : DbState)
    (rest : List GameRatingSummaryWithCallback)
    (hdir : env.ratingTypeIds = some dir)
    (hmiss : directoryGet dir s.rating_type = none)
    (hplayers : s.teams.flatMap (·.player_ids) ≠ []) :
    rate env s db = (db, [], some .unknownRatingType) ∧
    handleRatingQueue env db (s :: rest) =
      ((handleRatingQueue env db rest).1,
        .startRating s.game_id :: .logError s.game_id ::
          ((if s.callback.isSome then [.invokeCallback s.game_id] else []) ++
            .finishRating s.game_id :: (handleRatingQueue env db rest).2)) := by
  obtain ⟨p, ps, hps⟩ := List.exists_cons_of_ne_nil hplayers
  have hrate : rate env s db = (db, [], some .unknownRatingType) := by
    unfold rate getRatingData
    rw [hps]
    simp [fetchRatings, getPlayerRating, hdir, hmiss]
  refine ⟨hrate, ?_⟩
  simp [handleRatingQueue, hrate, logEventsFor, callbackEventsFor]

/-- Witness for C5 (amended) at a concrete unknown rating-type request. -/
theorem claim5_witness :
    rate envOk summaryUnknownType dbBase = (dbBase, [], some .unknownRatingType) ∧
    handleRatingQueue envOk dbBase [summaryUnknownType] =
      (dbBase, [.startRating 7, .logError 7, .invokeCallback 7, .finishRating 7]) := by
  have h := claim5_unknown_type_error_drop envOk [("global", 1), ("ladder_1v1", 2)]
    summaryUnknownType dbBase [] rfl rfl (by decide)
  refine ⟨h.1, ?_⟩
  rw [h.2]
  rfl

/-! ## C8 — inconsistent outcomes -/

theorem getPlayerRating_ok_effect (env : Env) (dir : List (String × Int)) (rtid : Int)
    (p : Int) (rt : RatingTypeKey) (db : DbState)
    (hdir : env.ratingTypeIds = some dir) (hrt : directoryGet dir rt = some rtid) :
    ∃ created r, getPlayerRating env p rt db =
      ({ db with leaderboard_rating := db.leaderboard_rating ++ created }, .ok r) ∧
      ∀ x ∈ created, x.isFreshDefault = true := by
  unfold getPlayerRating
  simp only [hdir, hrt]
  cases hf : db.leaderboard_rating.find? (ratingRowMatches p rtid) with
  | some row =>
    refine ⟨[], ⟨row.mean, row.deviation⟩, ?_, ?_⟩
    · simp
    · intro x hx
      cases hx
  | none =>
    refine ⟨[defaultRatingRow p (directoryGet dir rt)], ⟨START_RATING_MEAN, START_RATING_DEV⟩,
      ?_, ?_⟩
    · simp [createDefaultRating, hdir]
    · intro x hx
      rw [List.mem_singleton] at hx
      subst hx
      simp [LeaderboardRatingRow.isFreshDefault, defaultRatingRow]

theorem fetchRatings_ok_effect (env : Env) (dir : List (String × Int)) (rtid : Int)
    (rt : RatingTypeKey)
    (hdir : env.ratingTypeIds = some dir) (hrt : directoryGet dir rt = some rtid) :
    ∀ (pids : List Int) (acc : List (Int × TrueskillRating)) (db : DbState),
    ∃ created acc₁,
      fetchRatings env rt pids acc db =
        ({ db with leaderboard_rating := db.leaderboard_rating ++ created }, .ok acc₁) ∧
      (∀ x ∈ created, x.isFreshDefault = true) ∧
      (∀ k, (dictGet acc k).isSome = true → (dictGet acc₁ k).isSome = true) ∧
      (∀ k ∈ pids, (dictGet acc₁ k).isSome = true) := by
  intro pids
  induction pids with
  | nil =>
    intro acc db
    refine ⟨[], acc, ?_, ?_, ?_, ?_⟩
    · simp [fetchRatings]
    · intro x hx
      cases hx
    · exact fun k h => h
    · intro k hk
      cases hk
  | cons pid rest ih =>
    intro acc db
    obtain ⟨c₁, r, hg, hfresh₁⟩ := getPlayerRating_ok_effect env dir rtid pid rt db hdir hrt
    obtain ⟨c₂, acc₁, hrec, hfresh₂, hpres, hmem⟩ :=
      ih (dictInsert acc pid r) { db with leaderboard_rating := db.leaderboard_rating ++ c₁ }
    refine ⟨c₁ ++ c₂, acc₁, ?_, ?_, ?_, ?_⟩
    · simp only [fetchRatings, hg, hrec]
      simp [List.append_assoc]
    · intro x hx
      rcases List.mem_append.mp hx with hx₁ | hx₂
      · exact hfresh₁ x hx₁
      · exact hfresh₂ x hx₂
    · intro k hk
      refine hpres k ?_
      rw [dictGet_insert]
      by_cases hpk : pid == k
      · simp [hpk]
      · simp only [hpk, Bool.false_eq_true, if_false]
        exact hk
    · intro k hk
      rcases List.mem_cons.mp hk with hk₁ | hk₂
      · subst hk₁
        refine hpres k ?_
        rw [dictGet_insert]
        simp
      · exact hmem k hk₂

theorem teamRatingsFrom_ok (ratings : List (Int × TrueskillRating)) :
    ∀ pids : List Int, (∀ k ∈ pids, (dictGet ratings k).isSome = true) →
    ∃ rs, teamRatingsFrom ratings pids = .ok rs := by
  intro pids
  induction pids with
  | nil => exact fun _ => ⟨[], rfl⟩
  | cons pid rest ih =>
    intro h
    obtain ⟨r, hr⟩ := Option.isSome_iff_exists.mp (h pid (List.mem_cons_self pid rest))
    obtain ⟨rs, hrs⟩ := ih (fun k hk => h k (List.mem_cons_of_mem _ hk))
    exact ⟨(pid, r) :: rs, by simp [teamRatingsFrom, hr, hrs]⟩

/-- **C8 counterexample**: for a request with two `VICTORY` teams whose
players have no rating rows yet, the computation fails with
`GameRatingError` as claimed — but the preceding fetch phase has already
*created* two default rating rows, contradicting the claim's "no rating row
is created ... anywhere in the pipeline". -/
theorem claim8_counterexample :
    (rate envOk summaryTwoVictories dbBase).2.2 = some .gameRatingError ∧
    (rate envOk summaryTwoVictories dbBase).1.leaderboard_rating =
      [defaultRatingRow 1 (some 1), defaultRatingRow 2 (some 1)] ∧
    dbBase.leaderboard_rating = [] := by
  decide

/-- **C8 amended**: for a request whose two team outcomes are outside the
two-team victor/loser convention, the computation fails with
`RatingComputationError`/`GameRatingError`, no journal entry is written, no
existing rating row is updated, no notification is published, and the
worker drops the request with a warning-level log and continues — however
the fetch phase that runs *before* the computation may lazily create
default rating rows (mean 1500, deviation 500, zero counters) for players
who had none. -/
theorem claim8_inconsistent_outcomes_no_update (env : Env) (dir : List (String × Int))
    (rtid : Int) (s : GameRatingSummaryWithCallback) (db : DbState)
    (t₁ t₂ : TeamRatingSummary)
    (hteams : s.teams = [t₁, t₂])
    (hdir : env.ratingTypeIds = some dir)
    (hrt : directoryGet dir s.rating_type = some rtid)
    (hbad : consistentOutcomes t₁.outcome t₂.outcome = false) :
    ∃ created,
      rate env s db =
        ({ db with leaderboard_rating := db.leaderboard_rating ++ created }, [],
          some .gameRatingError) ∧
      (∀ x ∈ created, x.isFreshDefault = true) ∧
      ∀ rest, handleRatingQueue env db (s :: rest) =
        ((handleRatingQueue env
            { db with leaderboard_rating := db.leaderboard_rating ++ created } rest).1,
          .startRating s.game_id :: .logWarning s.game_id ::
            ((if s.callback.isSome then [.invokeCallback s.game_id] else []) ++
              .finishRating s.game_id :: (handleRatingQueue env
                { db with leaderboard_rating := db.leaderboard_rating ++ created } rest).2)) := by
  obtain ⟨created, acc₁, hfetch, hfresh, _, hmem⟩ :=
    fetchRatings_ok_effect env dir rtid s.rating_type hdir hrt
      (s.teams.flatMap (·.player_ids)) [] db
  have hmem₁ : ∀ k ∈ t₁.player_ids, (dictGet acc₁ k).isSome = true := by
    intro k hk
    refine hmem k ?_
    rw [hteams]
    simp [List.mem_flatMap]
    exact Or.inl hk
  have hmem₂ : ∀ k ∈ t₂.player_ids, (dictGet acc₁ k).isSome = true := by
    intro k hk
    refine hmem k ?_
    rw [hteams]
    simp [List.mem_flatMap]
    exact Or.inr hk
  obtain ⟨rs₁, hrs₁⟩ := teamRatingsFrom_ok acc₁ t₁.player_ids hmem₁
  obtain ⟨rs₂, hrs₂⟩ := teamRatingsFrom_ok acc₁ t₂.player_ids hmem₂
  have hbuild : buildRatingData acc₁ s.teams = .ok [⟨t₁.outcome, rs₁⟩, ⟨t₂.outcome, rs₂⟩] := by
    rw [hteams]
    simp [buildRatingData, hrs₁, hrs₂]
  have hdata : getRatingData env s db =
      ({ db with leaderboard_rating := db.leaderboard_rating ++ created },
        .ok [⟨t₁.outcome, rs₁⟩, ⟨t₂.outcome, rs₂⟩]) := by
    unfold getRatingData
    simp only [hfetch, hbuild]
  have hrate : rate env s db =
      ({ db with leaderboard_rating := db.leaderboard_rating ++ created }, [],
        some .gameRatingError) := by
    unfold rate
    simp only [hdata, compute_rating, hbad, Bool.false_eq_true, if_false]
  refine ⟨created, hrate, hfresh, ?_⟩
  intro rest
  simp [handleRatingQueue, hrate, logEventsFor, callbackEventsFor]

/-- Witness for C8 (amended): two fresh players, both teams `VICTORY`. -/
theorem claim8_witness :
    ∃ created,
      rate envOk summaryTwoVictories dbBase =
        ({ dbBase with leaderboard_rating := dbBase.leaderboard_rating ++ created }, [],
          some .gameRatingError) ∧
      (∀ x ∈ created, x.isFreshDefault = true) ∧
      ∀ rest, handleRatingQueue envOk dbBase (summaryTwoVictories :: rest) =
        ((handleRatingQueue envOk
            { dbBase with leaderboard_rating := dbBase.leaderboard_rating ++ created } rest).1,
          .startRating summaryTwoVictories.game_id ::
            .logWarning summaryTwoVictories.game_id ::
            ((if summaryTwoVictories.callback.isSome
              then [.invokeCallback summaryTwoVictories.game_id] else []) ++
              .finishRating summaryTwoVictories.game_id :: (handleRatingQueue envOk
                { dbBase with leaderboard_rating :=
                    dbBase.leaderboard_rating ++ created } rest).2)) :=
  claim8_inconsistent_outcomes_no_update envOk [("global", 1), ("ladder_1v1", 2)] 1
    summaryTwoVictories dbBase ⟨.VICTORY, [1]⟩ ⟨.VICTORY, [2]⟩ rfl rfl rfl rfl

/-! ## C9 — publish failures -/

/-- **C9 counterexample**: `_notify_rating_change` is awaited inline inside
the per-player persistence loop with no `try`/`except` around it, so a
publish failure aborts `_persist_rating_changes`: for a concrete game with
two players where the publish for player 1 fails, player 1's update is
persisted (journal entry and updated row kept — no rollback) but player 2's
update is never applied (the lazily-created default row stays untouched and
no journal entry for player 2 exists), contradicting the claim that a
publish failure "does not prevent the persistence of the remaining
players' updates". -/
theorem claim9_counterexample :
    (rate envPublishFails summaryOk dbBase).2.2 = some .publishFailure ∧
    (rate envPublishFails summaryOk dbBase).1.leaderboard_rating_journal =
      [⟨some 10, 1, 1500, 1600, 500, 400⟩] ∧
    (rate envPublishFails summaryOk dbBase).1.leaderboard_rating =
      [⟨1, 1600, 400, 1, 1, some 1⟩, defaultRatingRow 2 (some 1)] := by
  decide

/-- **C9 amended**: a publish failure does not roll back the just-persisted
player's update — the journal entry and rating-row update are kept — and
the escaping exception is logged at error level by the worker loop, which
continues; however the publish is awaited inside the persistence loop, so
its failure aborts the loop and the remaining players' updates for the same
game are not persisted. -/
theorem claim9_publish_failure_no_rollback (env : Env) (gid : Int) (rt : RatingTypeKey)
    (oldRatings : List (Int × TrueskillRating)) (outcomes : List (Int × GameOutcome))
    (p₁ : Int) (newR : TrueskillRating) (rest : List (Int × TrueskillRating))
    (db : DbState) (dir : List (String × Int)) (rtid : Int)
    (oldR : TrueskillRating) (out : GameOutcome)
    (hdir : env.ratingTypeIds = some dir)
    (hrt : directoryGet dir rt = some rtid)
    (hold : dictGet oldRatings p₁ = some oldR)
    (hout : dictGet outcomes p₁ = some out)
    (hpub : env.publishOk p₁ = false) :
    persistRatingChanges env gid rt oldRatings outcomes ((p₁, newR) :: rest) db =
      (applyUpdate gid rtid oldR newR p₁ out db, [], some .publishFailure) ∧
    (applyUpdate gid rtid oldR newR p₁ out db).leaderboard_rating_journal =
      db.leaderboard_rating_journal ++
        [{ game_player_stats_id := (db.game_player_stats.find?
              (fun g => g.playerId == p₁ && g.gameId == gid)).map (·.id)
           leaderboard_id := rtid
           rating_mean_before := oldR.mu
           rating_mean_after := newR.mu
           rating_deviation_before := oldR.sigma
           rating_deviation_after := newR.sigma }] ∧
    ∀ (s : GameRatingSummaryWithCallback) (q : List GameRatingSummaryWithCallback)
      (db₀ : DbState), (rate env s db₀).2.2 = some .publishFailure →
        .logError s.game_id ∈ (handleRatingQueue env db₀ (s :: q)).2 := by
  refine ⟨?_, ?_, ?_⟩
  · simp [persistRatingChanges, hold, hdir, hrt, hout, hpub, applyUpdate]
  · simp [applyUpdate, updateRatingRow, insertJournal]
  · intro s q db₀ herr
    rcases hr : rate env s db₀ with ⟨db₁, evs, err⟩
    rw [hr] at herr
    simp only at herr
    subst herr
    simp [handleRatingQueue, hr, logEventsFor, callbackEventsFor]

/-- Witness for C9 (amended): player 1's publish fails with player 2 still
pending. -/
theorem claim9_witness :
    persistRatingChanges envPublishFails 7 (.name "global")
        [(1, ⟨1500, 500⟩), (2, ⟨1500, 500⟩)] [(1, .VICTORY), (2, .DEFEAT)]
        [(1, ⟨1600, 400⟩), (2, ⟨1400, 400⟩)]
        { dbBase with leaderboard_rating :=
            [defaultRatingRow 1 (some 1), defaultRatingRow 2 (some 1)] } =
      (applyUpdate 7 1 ⟨1500, 500⟩ ⟨1600, 400⟩ 1 .VICTORY
          { dbBase with leaderboard_rating :=
              [defaultRatingRow 1 (some 1), defaultRatingRow 2 (some 1)] },
        [], some .publishFailure) ∧
    (applyUpdate 7 1 ⟨1500, 500⟩ ⟨1600, 400⟩ 1 .VICTORY
        { dbBase with leaderboard_rating :=
            [defaultRatingRow 1 (some 1), defaultRatingRow 2 (some 1)] }).leaderboard_rating_journal =
      ({ dbBase with leaderboard_rating :=
          [defaultRatingRow 1 (some 1), defaultRatingRow 2 (some 1)] } :
            DbState).leaderboard_rating_journal ++
        [{ game_player_stats_id := (({ dbBase with leaderboard_rating :=
              [defaultRatingRow 1 (some 1), defaultRatingRow 2 (some 1)] } :
                DbState).game_player_stats.find?
              (fun g => g.playerId == 1 && g.gameId == 7)).map (·.id)
           leaderboard_id := 1
           rating_mean_before := 1500
           rating_mean_after := 1600
           rating_deviation_before := 500
           rating_deviation_after := 400 }] ∧
    ∀ (s : GameRatingSummaryWithCallback) (q : List GameRatingSummaryWithCallback)
      (db₀ : DbState), (rate envPublishFails s db₀).2.2 = some .publishFailure →
        .logError s.game_id ∈ (handleRatingQueue envPublishFails db₀ (s :: q)).2 :=
  claim9_publish_failure_no_rollback envPublishFails 7 (.name "global")
    [(1, ⟨1500, 500⟩), (2, ⟨1500, 500⟩)] [(1, .VICTORY), (2, .DEFEAT)]
    1 ⟨1600, 400⟩ [(2, ⟨1400, 400⟩)]
    { dbBase with leaderboard_rating :=
        [defaultRatingRow 1 (some 1), defaultRatingRow 2 (some 1)] }
    [("global", 1), ("ladder_1v1", 2)] 1 ⟨1500, 500⟩ .VICTORY
    rfl rfl rfl rfl rfl

/-! ## Worker trace structure (shared by C1, C2, C3) -/

theorem worker_cons_trace (env : Env) (s : GameRatingSummaryWithCallback)
    (rest : List GameRatingSummaryWithCallback) (db db₁ : DbState)
    (evs : List WorkerEvent) (err : Option PipelineError)
    (hr : rate env s db = (db₁, evs, err)) :
    (handleRatingQueue env db (s :: rest)).2 =
      .startRating s.game_id ::
        ((evs ++ logEventsFor s.game_id err ++ callbackEventsFor s) ++
          (.finishRating s.game_id :: (handleRatingQueue env db₁ rest).2)) := by
  simp [handleRatingQueue, hr, List.append_assoc]

theorem persist_events_arePublish (env : Env) (gid : Int) (rt : RatingTypeKey)
    (oldRatings : List (Int × TrueskillRating)) (outcomes : List (Int × GameOutcome)) :
    ∀ (newRatings : List (Int × TrueskillRating)) (db : DbState),
    ∀ e ∈ (persistRatingChanges env gid rt oldRatings outcomes newRatings db).2.1,
      e.isPublish = true := by
  intro newRatings
  induction newRatings with
  | nil =>
    intro db e he
    simp [persistRatingChanges] at he
  | cons hd rest ih =>
    obtain ⟨pid, newR⟩ := hd
    intro db e he
    simp only [persistRatingChanges] at he
    split at he
    · cases he
    · split at he
      · cases he
      · split at he
        · cases he
        · split at he
          · cases he
          · split at he
            · simp only [List.mem_cons] at he
              rcases he with rfl | hmem
              · rfl
              · exact ih _ e hmem
            · cases he

theorem rate_events_arePublish (env : Env) (s : GameRatingSummaryWithCallback)
    (db : DbState) : ∀ e ∈ (rate env s db).2.1, e.isPublish = true := by
  intro e he
  rcases hd : getRatingData env s db with ⟨db₁, res⟩
  cases res with
  | error e₁ =>
    have hnil : (rate env s db).2.1 = [] := by
      unfold rate
      rw [hd]
    rw [hnil] at he
    cases he
  | ok data =>
    cases hc : compute_rating env data with
    | error e₂ =>
      have hnil : (rate env s db).2.1 = [] := by
        unfold rate
        rw [hd]
        simp [hc]
      rw [hnil] at he
      cases he
    | ok newRatings =>
      have heq : (rate env s db).2.1 =
          (persistRatingChanges env s.game_id s.rating_type
            ((data.flatMap (·.ratings)).foldl (fun m p => dictInsert m p.1 p.2) [])
            ((s.teams.flatMap (fun t => t.player_ids.map (fun pid => (pid, t.outcome)))).foldl
              (fun m p => dictInsert m p.1 p.2) [])
            newRatings db₁).2.1 := by
        unfold rate
        rw [hd]
        simp [hc]
      rw [heq] at he
      exact persist_events_arePublish env s.game_id s.rating_type _ _ newRatings db₁ e he

theorem isPublish_neutral (e : WorkerEvent) (h : e.isPublish = true) :
    e.isStart = false ∧ e.isFinish = false ∧ e.started? = none ∧ e.callbackFor? = none := by
  cases e <;> simp_all [WorkerEvent.isPublish, WorkerEvent.isStart, WorkerEvent.isFinish,
    WorkerEvent.started?, WorkerEvent.callbackFor?]

theorem logEventsFor_neutral (g : Int) (err : Option PipelineError) :
    ∀ e ∈ logEventsFor g err,
      e.isStart = false ∧ e.isFinish = false ∧ e.started? = none ∧ e.callbackFor? = none := by
  intro e he
  cases err with
  | none => cases he
  | some e₁ =>
    simp only [logEventsFor] at he
    split at he <;>
      (rw [List.mem_singleton] at he; subst he;
        exact ⟨rfl, rfl, rfl, rfl⟩)

theorem callbackEventsFor_neutral (s : GameRatingSummaryWithCallback) :
    ∀ e ∈ callbackEventsFor s,
      e.isStart = false ∧ e.isFinish = false ∧ e.started? = none := by
  intro e he
  simp only [callbackEventsFor] at he
  split at he
  · rw [List.mem_singleton] at he
    subst he
    exact ⟨rfl, rfl, rfl⟩
  · cases he

/-- The middle section of one worker-loop iteration (pipeline events,
logging, callback invocation) contains no processing start or finish
markers. -/
theorem worker_block_mid_neutral (env : Env) (s : GameRatingSummaryWithCallback)
    (db db₁ : DbState) (evs : List WorkerEvent) (err : Option PipelineError)
    (hr : rate env s db = (db₁, evs, err)) :
    ∀ e ∈ evs ++ logEventsFor s.game_id err ++ callbackEventsFor s,
      e.isStart = false ∧ e.isFinish = false := by
  intro e he
  rcases List.mem_append.mp he with h₁ | h₂
  · rcases List.mem_append.mp h₁ with h₃ | h₄
    · have := rate_events_arePublish env s db e (by rw [hr]; exact h₃)
      exact ⟨(isPublish_neutral e this).1, (isPublish_neutral e this).2.1⟩
    · exact ⟨(logEventsFor_neutral s.game_id err e h₄).1,
        (logEventsFor_neutral s.game_id err e h₄).2.1⟩
  · exact ⟨(callbackEventsFor_neutral s e h₂).1, (callbackEventsFor_neutral s e h₂).2.1⟩

theorem prefix_through_neutral (mid : List WorkerEvent)
    (hmid : ∀ e ∈ mid, e.isStart = false ∧ e.isFinish = false) :
    ∀ (rest q : List WorkerEvent), q <+: mid ++ rest →
      (countStarts q = 0 ∧ countFinishes q = 0) ∨
      ∃ r, r <+: rest ∧ countStarts q = countStarts r ∧ countFinishes q = countFinishes r := by
  induction mid with
  | nil =>
    intro rest q hq
    right
    exact ⟨q, by simpa using hq, rfl, rfl⟩
  | cons m mid ih =>
    intro rest q hq
    rcases List.prefix_cons_iff.mp hq with rfl | ⟨q₁, rfl, hq₁⟩
    · left
      exact ⟨rfl, rfl⟩
    · have hm := hmid m (List.mem_cons_self m mid)
      have hmid₁ : ∀ e ∈ mid, e.isStart = false ∧ e.isFinish = false :=
        fun e he => hmid e (List.mem_cons_of_mem _ he)
      rcases ih hmid₁ rest q₁ hq₁ with ⟨h₁, h₂⟩ | ⟨r, hr, e₁, e₂⟩
      · left
        constructor
        · simp only [countStarts, List.countP_cons, hm.1] at h₁ ⊢
          simpa using h₁
        · simp only [countFinishes, List.countP_cons, hm.2] at h₂ ⊢
          simpa using h₂
      · right
        refine ⟨r, hr, ?_, ?_⟩
        · simp only [countStarts, List.countP_cons, hm.1] at e₁ ⊢
          simpa using e₁
        · simp only [countFinishes, List.countP_cons, hm.2] at e₂ ⊢
          simpa using e₂

theorem worker_trace_nested (env : Env) :
    ∀ (queue : List GameRatingSummaryWithCallback) (db : DbState)
      (p : List WorkerEvent), p <+: (handleRatingQueue env db queue).2 →
      countStarts p ≤ countFinishes p + 1 := by
  intro queue
  induction queue with
  | nil =>
    intro db p hp
    have : p = [] := List.prefix_nil.mp (by simpa [handleRatingQueue] using hp)
    subst this
    simp [countStarts, countFinishes]
  | cons s rest ih =>
    intro db p hp
    rcases hr : rate env s db with ⟨db₁, evs, err⟩
    rw [worker_cons_trace env s rest db db₁ evs err hr] at hp
    rcases List.prefix_cons_iff.mp hp with rfl | ⟨q, rfl, hq⟩
    · simp [countStarts, countFinishes]
    · have hmid := worker_block_mid_neutral env s db db₁ evs err hr
      rcases prefix_through_neutral _ hmid _ q hq with ⟨h₁, h₂⟩ | ⟨r, hpr, e₁, e₂⟩
      · simp only [countStarts, countFinishes, List.countP_cons] at h₁ h₂ ⊢
        rw [h₁, h₂]
        simp [WorkerEvent.isStart, WorkerEvent.isFinish]
      · rcases List.prefix_cons_iff.mp hpr with rfl | ⟨r₁, rfl, hr₁⟩
        · simp only [countStarts, countFinishes, List.countP_nil] at e₁ e₂
          simp only [countStarts, countFinishes, List.countP_cons] at e₁ e₂ ⊢
          rw [e₁, e₂]
          simp [WorkerEvent.isStart, WorkerEvent.isFinish]
        · have hrec := ih db₁ r₁ hr₁
          simp only [countStarts, countFinishes, List.countP_cons] at e₁ e₂ hrec ⊢
          simp only [WorkerEvent.isStart, WorkerEvent.isFinish] at e₁ e₂ ⊢
          simp only [if_true, Bool.false_eq_true, if_false] at e₁ e₂ ⊢
          omega

/-- Every processing interval the worker opens is closed: over the whole
trace, starts and finishes balance. -/
theorem worker_trace_balanced (env : Env) :
    ∀ (queue : List GameRatingSummaryWithCallback) (db : DbState),
      countStarts (handleRatingQueue env db queue).2 =
        countFinishes (handleRatingQueue env db queue).2 := by
  intro queue
  induction queue with
  | nil =>
    intro db
    simp [handleRatingQueue, countStarts, countFinishes]
  | cons s rest ih =>
    intro db
    rcases hr : rate env s db with ⟨db₁, evs, err⟩
    rw [countStarts, countFinishes, worker_cons_trace env s rest db db₁ evs err hr]
    have hmid := worker_block_mid_neutral env s db db₁ evs err hr
    have hs0 : (evs ++ logEventsFor s.game_id err ++ callbackEventsFor s).countP
        WorkerEvent.isStart = 0 :=
      List.countP_eq_zero.mpr (fun e he => by simp [(hmid e he).1])
    have hf0 : (evs ++ logEventsFor s.game_id err ++ callbackEventsFor s).countP
        WorkerEvent.isFinish = 0 :=
      List.countP_eq_zero.mpr (fun e he => by simp [(hmid e he).2])
    have hrec := ih db₁
    simp only [countStarts, countFinishes] at hrec
    simp only [List.countP_cons, List.countP_append, hs0, hf0, hrec,
      WorkerEvent.isStart, WorkerEvent.isFinish]
    simp

/-- The worker's start events list exactly the queued game ids, in order:
it never stops early and each request is processed exactly once. -/
theorem worker_started_games (env : Env) :
    ∀ (queue : List GameRatingSummaryWithCallback) (db : DbState),
      startedGames (handleRatingQueue env db queue).2 = queue.map (·.game_id) := by
  intro queue
  induction queue with
  | nil =>
    intro db
    simp [handleRatingQueue, startedGames]
  | cons s rest ih =>
    intro db
    rcases hr : rate env s db with ⟨db₁, evs, err⟩
    rw [startedGames, worker_cons_trace env s rest db db₁ evs err hr]
    have hevs : evs.filterMap WorkerEvent.started? = [] :=
      List.filterMap_eq_nil_iff.mpr (fun e he => (isPublish_neutral e
        (rate_events_arePublish env s db e (by rw [hr]; exact he))).2.2.1)
    have hlog : (logEventsFor s.game_id err).filterMap WorkerEvent.started? = [] :=
      List.filterMap_eq_nil_iff.mpr
        (fun e he => (logEventsFor_neutral s.game_id err e he).2.2.1)
    have hcb : (callbackEventsFor s).filterMap WorkerEvent.started? = [] :=
      List.filterMap_eq_nil_iff.mpr (fun e he => (callbackEventsFor_neutral s e he).2.2)
    have hrec := ih db₁
    simp only [startedGames] at hrec
    simp [List.filterMap_cons, List.filterMap_append, hevs, hlog, hcb, hrec,
      WorkerEvent.started?]

/-- The worker's callback events list exactly the game ids of the queued
requests that carry a completion handle, in order: one invocation per such
request, on success and failure alike. -/
theorem worker_callback_games (env : Env) :
    ∀ (queue : List GameRatingSummaryWithCallback) (db : DbState),
      callbackGames (handleRatingQueue env db queue).2 =
        (queue.filter (fun s => s.callback.isSome)).map (·.game_id) := by
  intro queue
  induction queue with
  | nil =>
    intro db
    simp [handleRatingQueue, callbackGames]
  | cons s rest ih =>
    intro db
    rcases hr : rate env s db with ⟨db₁, evs, err⟩
    rw [callbackGames, worker_cons_trace env s rest db db₁ evs err hr]
    have hevs : evs.filterMap WorkerEvent.callbackFor? = [] :=
      List.filterMap_eq_nil_iff.mpr (fun e he => (isPublish_neutral e
        (rate_events_arePublish env s db e (by rw [hr]; exact he))).2.2.2)
    have hlog : (logEventsFor s.game_id err).filterMap WorkerEvent.callbackFor? = [] :=
      List.filterMap_eq_nil_iff.mpr
        (fun e he => (logEventsFor_neutral s.game_id err e he).2.2.2)
    have hcb : (callbackEventsFor s).filterMap WorkerEvent.callbackFor? =
        if s.callback.isSome then [s.game_id] else [] := by
      by_cases h : s.callback.isSome <;>
        simp [callbackEventsFor, h, WorkerEvent.callbackFor?]
    have hrec := ih db₁
    simp only [callbackGames] at hrec
    by_cases h : s.callback.isSome
    · simp [List.filterMap_cons, List.filterMap_append, hevs, hlog, hcb, hrec, h,
        WorkerEvent.callbackFor?, List.filter_cons]
    · simp [List.filterMap_cons, List.filterMap_append, hevs, hlog, hcb, hrec, h,
        WorkerEvent.callbackFor?, List.filter_cons]

/-! ## C1 — single sequential worker -/

/-- **C1**: rating is performed by a single sequential worker task and
never concurrently.  (i) `initialize` is guarded: it creates a worker task
only when none exists, and is a no-op when one does — so at most one worker
task ever consumes the queue.  (ii) In the worker's event trace, processing
intervals never overlap: every prefix of the trace has at most one more
`startRating` than `finishRating` marks — at most one game is being rated
at any instant, so two in-flight computations never exist, let alone race
on the same player's rating.  (iii) Every opened interval is closed: over
the full trace, starts and finishes balance. -/
theorem claim1_single_sequential_worker :
    (∀ (rows : List LeaderboardRow) (st : ServiceState),
      ((initService rows st).task.isSome = true) ∧
      (st.task.isSome = true → initService rows st = st)) ∧
    (∀ (env : Env) (queue : List GameRatingSummaryWithCallback) (db : DbState)
      (p : List WorkerEvent), p <+: (handleRatingQueue env db queue).2 →
      countStarts p ≤ countFinishes p + 1) ∧
    (∀ (env : Env) (queue : List GameRatingSummaryWithCallback) (db : DbState),
      countStarts (handleRatingQueue env db queue).2 =
        countFinishes (handleRatingQueue env db queue).2) := by
  refine ⟨?_, ?_, ?_⟩
  · intro rows st
    by_cases h : st.task.isSome
    · exact ⟨by simp [initService, h], fun _ => by simp [initService, h]⟩
    · refine ⟨by simp [initService, h], ?_⟩
      intro hcon
      exact absurd hcon h
  · intro env queue db p hp
    exact worker_trace_nested env queue db p hp
  · intro env queue db
    exact worker_trace_balanced env queue db

/-- Witness for C1: a second `initialize` with a live task is a no-op, and
the interval property holds on a concrete prefix of a concrete trace. -/
theorem claim1_witness :
    initService [] ⟨true, some 3, none⟩ = ⟨true, some 3, none⟩ ∧
    countStarts [WorkerEvent.startRating 7] ≤
      countFinishes [WorkerEvent.startRating 7] + 1 ∧
    countStarts (handleRatingQueue envOk dbBase [summaryOk]).2 =
      countFinishes (handleRatingQueue envOk dbBase [summaryOk]).2 := by
  refine ⟨(claim1_single_sequential_worker.1 [] ⟨true, some 3, none⟩).2 rfl,
    claim1_single_sequential_worker.2.1 envOk [summaryOk] dbBase
      [WorkerEvent.startRating 7]
      ⟨[.publishRatingUpdate 1, .publishRatingUpdate 2, .invokeCallback 7,
        .finishRating 7], by decide⟩,
    claim1_single_sequential_worker.2.2 envOk [summaryOk] dbBase⟩

/-! ## C2 — failure containment -/

/-- **C2**: the worker loop survives every per-request failure: for any
environment (any pattern of computation, persistence or publish failures),
the trace's start events are exactly the queued game ids in order — the
loop never terminates because of a request's failure, continues with the
next request, and processes each request exactly once (the failed request
is dropped, not retried); and every failing request produces a log event
(warning level for a `GameRatingError`, error level otherwise). -/
theorem claim2_worker_survives_failures :
    (∀ (env : Env) (db : DbState) (queue : List GameRatingSummaryWithCallback),
      startedGames (handleRatingQueue env db queue).2 = queue.map (·.game_id)) ∧
    (∀ (env : Env) (db : DbState) (s : GameRatingSummaryWithCallback)
      (rest : List GameRatingSummaryWithCallback) (e : PipelineError),
      (rate env s db).2.2 = some e →
        (if e = .gameRatingError then WorkerEvent.logWarning s.game_id
          else WorkerEvent.logError s.game_id) ∈
          (handleRatingQueue env db (s :: rest)).2) := by
  constructor
  · intro env db queue
    exact worker_started_games env queue db
  · intro env db s rest e herr
    rcases hr : rate env s db with ⟨db₁, evs, err⟩
    rw [hr] at herr
    simp only at herr
    subst herr
    rw [worker_cons_trace env s rest db db₁ evs (some e) hr]
    by_cases he : e = .gameRatingError <;>
      simp [he, logEventsFor]

/-- Witness for C2: a queue whose first request fails (unknown rating
type) and whose second succeeds — both are started, and the failure is
logged at error level. -/
theorem claim2_witness :
    startedGames (handleRatingQueue envOk dbBase
      [summaryUnknownType, { summaryOk with game_id := 8 }]).2 = [7, 8] ∧
    (if PipelineError.unknownRatingType = .gameRatingError then
        WorkerEvent.logWarning 7 else WorkerEvent.logError 7) ∈
      (handleRatingQueue envOk dbBase [summaryUnknownType]).2 := by
  constructor
  · have h := claim2_worker_survives_failures.1 envOk dbBase
      [summaryUnknownType, { summaryOk with game_id := 8 }]
    simpa [summaryUnknownType, summaryOk] using h
  · exact claim2_worker_survives_failures.2 envOk dbBase summaryUnknownType []
      .unknownRatingType (by rfl)

/-! ## C3 — completion handle exactly once -/

/-- **C3**: every request accepted into the queue that carries a completion
handle has it invoked exactly once after processing, on success and on
failure alike: the trace's callback events are exactly the game ids of the
handle-carrying queued requests, in order (one event per request — never
zero, never two); and acceptance itself (a successful parse while
accepting) appends the request to the queue without touching the handle. -/
theorem claim3_callback_exactly_once :
    (∀ (env : Env) (db : DbState) (queue : List GameRatingSummaryWithCallback),
      callbackGames (handleRatingQueue env db queue).2 =
        (queue.filter (fun s => s.callback.isSome)).map (·.game_id)) ∧
    (∀ (gi : GameInfo) (q : List GameRatingSummaryWithCallback)
      (s : GameRatingSummaryWithCallback),
      from_game_info_dict gi = .ok s →
        enqueue true q gi = ⟨q ++ [s], false, false⟩) := by
  constructor
  · intro env db queue
    exact worker_callback_games env queue db
  · intro gi q s hok
    simp [enqueue, hok]

/-- Witness for C3: of two queued requests only the first carries a handle
and only its game id shows a callback event, once; a successfully parsed
message is enqueued without handle invocation. -/
theorem claim3_witness :
    callbackGames (handleRatingQueue envOk dbBase
      [summaryOk, { summaryOk with game_id := 9, callback := none }]).2 = [7] ∧
    enqueue true [] gameInfoEmptyPids =
      ⟨[⟨111, .enumMember .GLOBAL, [⟨.VICTORY, []⟩, ⟨.DEFEAT, [444]⟩], some ()⟩],
        false, false⟩ := by
  constructor
  · have h := claim3_callback_exactly_once.1 envOk dbBase
      [summaryOk, { summaryOk with game_id := 9, callback := none }]
    simpa [summaryOk] using h
  · exact claim3_callback_exactly_once.2 gameInfoEmptyPids []
      ⟨111, .enumMember .GLOBAL, [⟨.VICTORY, []⟩, ⟨.DEFEAT, [444]⟩], some ()⟩ (by rfl)

end FafRating
